import Mathlib

/-!
Verification of the Me_As_AI chat client.

This file gives a shallow embedding of the client-side state coordination of
the repository (the streaming chat update loop of `App.tsx`, the speech
recognition lifecycle of the chat input component, the speech synthesis
playback coordination, and the gemini service wrapper), and proves the
testable properties stated in the specification against it.

Modelling conventions:
* JavaScript strings become `String`; `Date.now()` millisecond timestamps
  become `Nat` values supplied by the environment at each read; the decimal
  rendering `Date.now().toString()` is embedded as `natToString`.
* React `setMessages`-style functional updates are composed sequentially, so
  an event handler becomes a pure function on an explicit state record.
* The incremental stream of `GenerateContentResponse` chunks becomes a list
  of `Option String` (a chunk whose `text` is absent is `none`), together
  with a terminal outcome: normal completion or an error raised mid-stream.
-/

namespace MeAsAI

/-- `SenderType` enum from `types.ts`. -/
inductive SenderType where
  | USER
  | AI
  | SYSTEM
deriving DecidableEq, Repr

/-- `Message` interface from `types.ts`; `timestamp` is the millisecond value
of the `Date` object. -/
structure Message where
  id : String
  text : String
  sender : SenderType
  timestamp : Nat
deriving DecidableEq, Repr

/-- Little-endian decimal digits of `n`, with `fuel` bounding the recursion
depth (`n` itself is always enough fuel). -/
def decDigitsCore : Nat → Nat → List Nat
  | 0, _ => []
  | _ + 1, 0 => []
  | fuel + 1, n + 1 => (n + 1) % 10 :: decDigitsCore fuel ((n + 1) / 10)

/-- Little-endian decimal digits of `n` (empty for `0`). -/
def decDigits (n : Nat) : List Nat := decDigitsCore n n

/-- Value of a little-endian decimal digit list. -/
def ofDecDigits : List Nat → Nat
  | [] => 0
  | d :: ds => d + 10 * ofDecDigits ds

/-- Inverse of `Nat.digitChar` on decimal digit characters. -/
def charToDigit (c : Char) : Nat :=
  if c = '1' then 1 else if c = '2' then 2 else if c = '3' then 3
  else if c = '4' then 4 else if c = '5' then 5 else if c = '6' then 6
  else if c = '7' then 7 else if c = '8' then 8 else if c = '9' then 9 else 0

/-- Embedding of `Date.now().toString()`: the decimal rendering of a natural
number. -/
def natToString (n : Nat) : String :=
  if n = 0 then "0" else String.mk ((decDigits n).reverse.map Nat.digitChar)

/-- Decoder used only to prove that `natToString` is injective. -/
def natFromString (s : String) : Nat :=
  ofDecDigits ((s.data.map charToDigit).reverse)

/-- Id of a user message: `Date.now().toString() + '-user'` (App.tsx line 59). -/
def userMsgId (now : Nat) : String := natToString now ++ "-user"

/-- Id of a streamed assistant message: `Date.now().toString() + '-ai'`
(App.tsx line 68). -/
def aiMsgId (now : Nat) : String := natToString now ++ "-ai"

/-- Id of the initial greeting: `'init-greet-' + Date.now()` (App.tsx line 32). -/
def initGreetId (now : Nat) : String := "init-greet-" ++ natToString now

/-- Id of the greeting created by a conversation reset:
`'reset-greet-' + Date.now()` (App.tsx line 113). -/
def resetGreetId (now : Nat) : String := "reset-greet-" ++ natToString now

/-- The React state of `App` (App.tsx lines 10-19): the transcript, the
loading flag, the error banner, the missing-key flag, the two capability
flags, and the currently speaking message id.  `speechSpeaking` mirrors
`window.speechSynthesis.speaking`, the browser-side fact that an utterance is
active; `requestCount` counts how many times a send operation has opened a
stream against the chat service (each call of `sendMessageToTejaswiStream`
is one request). -/
structure AppState where
  messages : List Message
  isLoading : Bool
  error : Option String
  apiKeyMissing : Bool
  speechSynthesisSupported : Bool
  speechRecognitionSupported : Bool
  currentlySpeakingMessageId : Option String
  speechSpeaking : Bool
  requestCount : Nat
deriving DecidableEq, Repr

/-- The greeting inserted by the initial mount effect (App.tsx lines 31-37). -/
def initialGreeting (now : Nat) : Message :=
  { id := initGreetId now
    text := "Yo! What\x27s up? Ready to cook up something cool, or just wanna chat about the latest in tech? 🧑‍💻 Let me know what\x27s on your mind!"
    sender := SenderType.AI
    timestamp := now }

/-- The greeting inserted by `handleResetConversation` (App.tsx lines 112-117). -/
def resetGreeting (now : Nat) : Message :=
  { id := resetGreetId now
    text := "Alright, fresh start! What\x27s on your mind now? Let\x27s build something awesome or explore some new tech! 🚀"
    sender := SenderType.AI
    timestamp := now }

/-- State after the initial mount effect (App.tsx lines 21-46): if the API key
is absent the effect records the configuration error and returns before the
greeting is inserted; otherwise it records capability support and inserts the
initial greeting. -/
def initApp (apiKeyPresent synthSupported recogSupported : Bool) (now : Nat) : AppState :=
  if apiKeyPresent = false then
    { messages := []
      isLoading := false
      error := some ("API_KEY environment variable is not set. This application requires an API key to function.")
      apiKeyMissing := true
      speechSynthesisSupported := false
      speechRecognitionSupported := false
      currentlySpeakingMessageId := none
      speechSpeaking := false
      requestCount := 0 }
  else
    { messages := [initialGreeting now]
      isLoading := false
      error := none
      apiKeyMissing := false
      speechSynthesisSupported := synthSupported
      speechRecognitionSupported := recogSupported
      currentlySpeakingMessageId := none
      speechSpeaking := false
      requestCount := 0 }

/-- A streamed chat response: the chunk texts in order (`none` when a chunk
has no `text`), and the terminal outcome of the iteration — normal completion
or an error thrown to the consuming loop after the listed chunks. -/
structure StreamResult where
  chunks : List (Option String)
  outcome : Except String Unit
deriving Repr

/-- `if (window.speechSynthesis && window.speechSynthesis.speaking) then
cancel() and clear the marker` — the guard used by `handleSendMessage`
(App.tsx lines 53-56) and `handleResetConversation` (lines 104-107). -/
def cancelSpeechIfSpeaking (s : AppState) : AppState :=
  if s.speechSynthesisSupported && s.speechSpeaking then
    { s with speechSpeaking := false, currentlySpeakingMessageId := none }
  else s

/-- The user message appended by `handleSendMessage` (App.tsx lines 58-63). -/
def userMessage (now : Nat) (text : String) : Message :=
  { id := userMsgId now, text := text, sender := SenderType.USER, timestamp := now }

/-- The assistant placeholder appended by `handleSendMessage` before the
stream is consumed (App.tsx lines 69-72). -/
def aiPlaceholder (nowA : Nat) : Message :=
  { id := aiMsgId nowA, text := "", sender := SenderType.AI, timestamp := nowA }

/-- State just before the streaming loop of `handleSendMessage` (App.tsx
lines 53-77, minus the early missing-key return): speech canceled if active,
the user message appended, loading set, the banner cleared, the empty
assistant placeholder appended, and one stream request opened. -/
def sendPrelude (nowU nowA : Nat) (text : String) (s : AppState) : AppState :=
  let s1 := cancelSpeechIfSpeaking s
  let s2 := { s1 with
    messages := s1.messages ++ [userMessage nowU text]
    isLoading := true
    error := none }
  { s2 with
    messages := s2.messages ++ [aiPlaceholder nowA]
    requestCount := s2.requestCount + 1 }

/-- The streaming loop of `handleSendMessage` (App.tsx lines 78-88): for each
chunk, when its text is truthy (present and nonempty) it is appended to the
accumulator and the message with the assistant id has its text replaced by
the accumulator.  Returns the final accumulator and transcript. -/
def streamLoop (aid : String) : List (Option String) → String → List Message → String × List Message
  | [], acc, msgs => (acc, msgs)
  | c :: cs, acc, msgs =>
    match c with
    | none => streamLoop aid cs acc msgs
    | some t =>
      if t == "" then streamLoop aid cs acc msgs
      else
        streamLoop aid cs (acc ++ t)
          (msgs.map fun m => if m.id == aid then { m with text := acc ++ t } else m)

/-- `handleSendMessage` (App.tsx lines 48-101), for one complete run of the
streaming loop with outcome `stream.outcome`.  `nowU` and `nowA` are the
values read from `Date.now()` when the user and assistant messages are
created. -/
def handleSendMessage (nowU nowA : Nat) (text : String) (stream : StreamResult) (s : AppState) : AppState :=
  if s.apiKeyMissing then
    { s with error := some ("Cannot send message: API_KEY is missing.") }
  else
    let s3 := sendPrelude nowU nowA text s
    let msgs := (streamLoop (aiMsgId nowA) stream.chunks "" s3.messages).2
    match stream.outcome with
    | Except.ok _ => { s3 with messages := msgs, isLoading := false }
    | Except.error e =>
      { s3 with
        messages := msgs.map fun m =>
          if m.id == aiMsgId nowA then { m with text := "Sorry, I hit a snag! Error: " ++ e } else m
        error := some ("Tejaswi seems to be having a moment... 🤯 (" ++ e ++ ")")
        isLoading := false }

/-- `handleResetConversation` (App.tsx lines 103-120).  The service-side
`resetChatSession()` call is modelled on `ServiceState` below. -/
def handleResetConversation (now : Nat) (s : AppState) : AppState :=
  let s1 := cancelSpeechIfSpeaking s
  let s2 := { s1 with messages := ([] : List Message), error := none, isLoading := false }
  { s2 with messages := [resetGreeting now] }

/-- `handlePlaySpeech` (App.tsx lines 122-161).  The returned `Bool` records
whether a new utterance was handed to `speechSynthesis.speak`; in that case
the utterance `onstart` callback sets the speaking marker (collapsed here
into the same step).  Voice selection, pitch and rate only configure the
utterance object and do not touch the modelled state. -/
def handlePlaySpeech (text msgId : String) (s : AppState) : AppState × Bool :=
  if !s.speechSynthesisSupported || text == "" then (s, false)
  else if s.speechSpeaking then
    if s.currentlySpeakingMessageId == some msgId then
      ({ s with speechSpeaking := false, currentlySpeakingMessageId := none }, false)
    else
      ({ s with speechSpeaking := true, currentlySpeakingMessageId := some msgId }, true)
  else
    ({ s with speechSpeaking := true, currentlySpeakingMessageId := some msgId }, true)

/-- `handleStopSpeech` (App.tsx lines 163-168). -/
def handleStopSpeech (s : AppState) : AppState :=
  if s.speechSynthesisSupported && s.speechSpeaking then
    { s with speechSpeaking := false, currentlySpeakingMessageId := none }
  else s

/-- `handleSpeakerClick` (ChatMessage.tsx lines 60-66); the
`isCurrentlySpeaking` prop is `currentlySpeakingMessageId === msg.id`
(ChatHistory.tsx line 39).  The `Bool` again records whether an utterance was
started. -/
def handleSpeakerClick (m : Message) (s : AppState) : AppState × Bool :=
  if s.currentlySpeakingMessageId == some m.id then (handleStopSpeech s, false)
  else handlePlaySpeech m.text m.id s

/-- Utterance `onend` callback (App.tsx lines 152-154); the platform fact
that the utterance stopped playing is recorded in `speechSpeaking`. -/
def utteranceOnEnd (s : AppState) : AppState :=
  { s with currentlySpeakingMessageId := none, speechSpeaking := false }

/-- Utterance `onerror` callback (App.tsx lines 155-159). -/
def utteranceOnError (s : AppState) : AppState :=
  { s with
    error := some ("Oops, couldn\x27t play that message. 😬")
    currentlySpeakingMessageId := none
    speechSpeaking := false }

/-- `handleSpeechError` (App.tsx lines 170-172). -/
def handleSpeechError (message : String) (s : AppState) : AppState :=
  { s with error := some message }

/-- The user- or platform-triggered operations on the `App` state. -/
inductive AppOp where
  | send (nowU nowA : Nat) (text : String) (stream : StreamResult)
  | reset (now : Nat)
  | play (text msgId : String)
  | stop
  | speakerClick (m : Message)
  | utterEnd
  | utterError
  | speechError (message : String)
deriving Repr

def stepApp (s : AppState) : AppOp → AppState
  | AppOp.send nowU nowA text stream => handleSendMessage nowU nowA text stream s
  | AppOp.reset now => handleResetConversation now s
  | AppOp.play text msgId => (handlePlaySpeech text msgId s).1
  | AppOp.stop => handleStopSpeech s
  | AppOp.speakerClick m => (handleSpeakerClick m s).1
  | AppOp.utterEnd => utteranceOnEnd s
  | AppOp.utterError => utteranceOnError s
  | AppOp.speechError message => handleSpeechError message s

def runApp (s : AppState) (ops : List AppOp) : AppState := ops.foldl stepApp s

/-- The whitespace class trimmed by JavaScript `String.prototype.trim`
(ECMA-262 WhiteSpace and LineTerminator code points). -/
def isJsWhitespace (c : Char) : Bool :=
  c == '\t' || c == '\n' || c == '\x0B' || c == '\x0C' || c == '\r' || c == ' ' ||
  c == '\u00A0' || c == '\u1680' || (0x2000 ≤ c.toNat && c.toNat ≤ 0x200A) ||
  c == '\u2028' || c == '\u2029' || c == '\u202F' || c == '\u205F' ||
  c == '\u3000' || c == '\uFEFF'

/-- Embedding of JavaScript `String.prototype.trim`: remove leading and
trailing whitespace. -/
def jsTrim (s : String) : String :=
  String.mk (((s.data.dropWhile isJsWhitespace).reverse.dropWhile isJsWhitespace).reverse)

/-- State of the `ChatInput` component: the textarea value, the recording
flag, and `latestFinalTranscriptRef.current`. -/
structure InputState where
  inputValue : String
  isRecording : Bool
  latestFinalTranscript : String
deriving DecidableEq, Repr

/-- One entry of a `SpeechRecognitionEvent`'s result list: the transcript of
its best alternative and its `isFinal` flag. -/
structure RecResult where
  transcript : String
  isFinal : Bool
deriving DecidableEq, Repr

/-- The concatenation loop of `recognition.onresult` (ChatInput, lines
142-146): transcripts of the results from `resultIndex` onward. -/
def joinTranscripts : List RecResult → String
  | [] => ""
  | r :: rs => r.transcript ++ joinTranscripts rs

/-- A `SpeechRecognitionErrorEvent`: the platform error code and message. -/
structure RecErrorEvent where
  error : String
  message : String
deriving DecidableEq, Repr

/-- The user-facing message computed by `recognition.onerror`
(ChatInput, lines 167-187): the switch on the error code determines the final
text in every case. -/
def recognitionErrorBanner (ev : RecErrorEvent) : String :=
  if ev.error == "no-speech" then "Didn\x27t catch that, could you try again? 🤔"
  else if ev.error == "audio-capture" then "Hmm, couldn\x27t access your microphone. Check permissions? 🎤"
  else if ev.error == "not-allowed" then "Looks like microphone access was denied. You can change this in browser settings if you want to use voice input! 👍"
  else "Oops, voice input ran into a snag: " ++ ev.error ++ ". " ++ ev.message

/-- `recognition.onresult` (ChatInput, lines 141-153): show the concatenated
transcript in the textarea; if the last result segment is final, record the
trimmed transcript as the submission candidate.  An event with an empty
result list never occurs on the platform and is modelled as a no-op. -/
def recognitionOnResult (allResults : List RecResult) (resultIndex : Nat) (st : InputState) : InputState :=
  let currentTranscript := joinTranscripts (allResults.drop resultIndex)
  let st1 := { st with inputValue := currentTranscript }
  match allResults.getLast? with
  | some r => if r.isFinal then { st1 with latestFinalTranscript := jsTrim currentTranscript } else st1
  | none => st1

/-- `recognition.onend` (ChatInput, lines 155-165): stop recording; when a
finalized transcript is pending, emit it as the message to send and clear the
textarea and the candidate.  The second component is the submitted text, if
any. -/
def recognitionOnEnd (st : InputState) : InputState × Option String :=
  let st1 := { st with isRecording := false }
  if st1.latestFinalTranscript == "" then (st1, none)
  else ({ st1 with inputValue := "", latestFinalTranscript := "" }, some st1.latestFinalTranscript)

/-- `recognition.onerror` (ChatInput, lines 167-190): surface the banner
text, stop recording, and clear any partial transcript.  No submission is
emitted on this path. -/
def recognitionOnError (ev : RecErrorEvent) (st : InputState) : InputState × String :=
  ({ st with isRecording := false, latestFinalTranscript := "" }, recognitionErrorBanner ev)

/-- The start branch of `toggleRecording` (ChatInput, lines 232-237): clear
the composer text and any stale transcript, then begin capturing. -/
def toggleRecordingStart (st : InputState) : InputState :=
  { st with inputValue := "", latestFinalTranscript := "", isRecording := true }

/-- `handleSubmit` (ChatInput, lines 209-216): submit the trimmed composer
text when it is nonempty and no send is in flight.  The second component is
the submitted text, if any. -/
def handleSubmit (isLoading : Bool) (st : InputState) : InputState × Option String :=
  if !(jsTrim st.inputValue == "") && !isLoading then
    ({ st with inputValue := "", latestFinalTranscript := "" }, some (jsTrim st.inputValue))
  else (st, none)

/-- Events a recognition session can deliver between `start()` and `onend`. -/
inductive RecEvent where
  | result (allResults : List RecResult) (resultIndex : Nat)
  | error (ev : RecErrorEvent)
deriving Repr

def stepRec (st : InputState) : RecEvent → InputState
  | RecEvent.result rs i => recognitionOnResult rs i st
  | RecEvent.error ev => (recognitionOnError ev st).1

def runRecEvents (st : InputState) (evs : List RecEvent) : InputState := evs.foldl stepRec st

/-- One complete recognition session: the start branch of `toggleRecording`,
the delivered events, then `onend`.  Returns the final input state and the
text submitted at session end, if any. -/
def runSession (st : InputState) (evs : List RecEvent) : InputState × Option String :=
  recognitionOnEnd (runRecEvents (toggleRecordingStart st) evs)

/-- The composer submit path wired to the app: `handleSubmit` feeding
`onSendMessage` = `handleSendMessage`. -/
def composerSubmit (nowU nowA : Nat) (stream : StreamResult) (app : AppState) (st : InputState) :
    AppState × InputState :=
  match handleSubmit app.isLoading st with
  | (st2, some t) => (handleSendMessage nowU nowA t stream app, st2)
  | (st2, none) => (app, st2)

/-- A whole voice session wired to the app: the submission emitted at
`onend`, if any, is fed to `onSendMessage` = `handleSendMessage`. -/
def voiceSession (nowU nowA : Nat) (stream : StreamResult) (app : AppState) (st : InputState)
    (evs : List RecEvent) : AppState × InputState :=
  match runSession st evs with
  | (st2, some t) => (handleSendMessage nowU nowA t stream app, st2)
  | (st2, none) => (app, st2)

/-- Module-level state of `geminiService.ts`: whether the `GoogleGenAI`
instance and the `Chat` handle exist. -/
structure ServiceState where
  ai : Bool
  chat : Bool
deriving DecidableEq, Repr

/-- Environment of one service call: whether `process.env.API_KEY` is set,
whether `chats.create` throws (and with what message), whether
`chat.sendMessageStream` rejects, and otherwise the chunks it yields. -/
structure ServiceEnv where
  apiKeyPresent : Bool
  createChatFails : Option String
  sendFails : Option String
  streamChunks : List (Option String)
deriving Repr

/-- The error message thrown by `getAiInstance` when the key is missing. -/
def missingKeyError : String :=
  "API_KEY environment variable not set. Cannot initialize GoogleGenAI."

/-- `initializeChat` composed with `getAiInstance` (geminiService.ts lines
49-75): the resulting module state and the error thrown, if any. -/
def initializeChat (env : ServiceEnv) (st : ServiceState) : ServiceState × Option String :=
  if !st.ai && !env.apiKeyPresent then (st, some missingKeyError)
  else
    let st1 := { st with ai := true }
    if st1.chat then (st1, none)
    else
      match env.createChatFails with
      | some e => (st1, some e)
      | none => ({ st1 with chat := true }, none)

/-- The dummy async iterable built on the initialization-failure path of
`sendMessageToTejaswiStream`: its first iteration throws the error. -/
def errorStream (e : String) : StreamResult := { chunks := [], outcome := Except.error e }

/-- Pulling once from a stream: the first chunk if one exists, `none` if the
iteration completes immediately, or the raised error. -/
def firstPull (sr : StreamResult) : Except String (Option (Option String)) :=
  match sr.chunks with
  | c :: _ => Except.ok (some c)
  | [] =>
    match sr.outcome with
    | Except.ok _ => Except.ok none
    | Except.error e => Except.error e

/-- `sendMessageToTejaswiStream` (geminiService.ts lines 77-112).  The outer
`Except` is the promise returned by the call itself: `Except.error` is a
call-time rejection, `Except.ok` carries the async iterable handed to the
caller. -/
def sendMessageToTejaswiStream (env : ServiceEnv) (st : ServiceState) (userText : String) :
    ServiceState × Except String StreamResult :=
  match initializeChat env st with
  | (st1, some initError) => (st1, Except.ok (errorStream initError))
  | (st1, none) =>
    if !st1.chat then
      (st1, Except.ok (errorStream ("Chat not initialized. Cannot send message.")))
    else
      match env.sendFails with
      | some e => (st1, Except.error e)
      | none => (st1, Except.ok { chunks := env.streamChunks, outcome := Except.ok () })

/-- `resetChatSession` (geminiService.ts lines 115-118). -/
def resetChatSession (st : ServiceState) : ServiceState := { st with chat := false }

/-- Ordered concatenation of the streamed fragments, where absent and empty
fragments contribute nothing.  This is the specification-side right-hand
side of the streaming property. -/
def fragConcat : List (Option String) → String
  | [] => ""
  | none :: cs => fragConcat cs
  | some t :: cs => t ++ fragConcat cs

/-- Text of the message with the given id, as the renderer would look it up. -/
def findMessageText (aid : String) (msgs : List Message) : Option String :=
  (msgs.find? fun m => m.id == aid).map Message.text

/-- The message identifier `i` is marked as currently speaking in state `s`. -/
def isMarkedSpeaking (s : AppState) (i : String) : Prop :=
  s.currentlySpeakingMessageId = some i

/-- The `Date.now()` value read when a send operation creates its user
message. -/
def AppOp.sendUserStamp : AppOp → Option Nat
  | AppOp.send nowU _ _ _ => some nowU
  | _ => none

/-- The `Date.now()` value read when a send operation creates its assistant
placeholder. -/
def AppOp.sendAiStamp : AppOp → Option Nat
  | AppOp.send _ nowA _ _ => some nowA
  | _ => none

/-- The `Date.now()` value read when a reset creates its greeting. -/
def AppOp.resetStamp : AppOp → Option Nat
  | AppOp.reset now => some now
  | _ => none

/-- Every id in the transcript is one of the four builder shapes, with its
timestamp drawn from the corresponding used-stamp list (or equal to the
initial-greeting stamp). -/
def IdFrom (usedU usedA usedR : List Nat) (initT : Nat) (i : String) : Prop :=
  (∃ t ∈ usedU, i = userMsgId t) ∨ (∃ t ∈ usedA, i = aiMsgId t) ∨
  (∃ t ∈ usedR, i = resetGreetId t) ∨ i = initGreetId initT

/-- For a send operation, the freshly built assistant id does not already
occur in the transcript; trivially true for every other operation. -/
def AiFreshFor (s : AppState) : AppOp → Prop
  | AppOp.send _ nowA _ _ => ∀ m ∈ s.messages, m.id ≠ aiMsgId nowA
  | _ => True

/-- The transcript captured by a recognition event is empty or whitespace
only (error events capture nothing). -/
def eventWhitespaceOnly : RecEvent → Bool
  | RecEvent.result rs i => jsTrim (joinTranscripts (rs.drop i)) == ""
  | RecEvent.error _ => true

/-- The recognition event delivers a finalized transcript: it is a result
event whose last result segment is final. -/
def eventFinalizes : RecEvent → Bool
  | RecEvent.result rs _ =>
    match rs.getLast? with
    | some r => r.isFinal
    | none => false
  | RecEvent.error _ => false

/-- A concrete input-component state used by witnesses. -/
def sampleInput : InputState :=
  { inputValue := "x", isRecording := false, latestFinalTranscript := "stale" }

/-- A concrete assistant message used by witnesses. -/
def sampleMessage : Message :=
  { id := "m1", text := "hello", sender := SenderType.AI, timestamp := 0 }

/-- A concrete state in which `sampleMessage` is being spoken, used by
witnesses. -/
def sampleSpeakingState : AppState :=
  { messages := [sampleMessage]
    isLoading := false
    error := none
    apiKeyMissing := false
    speechSynthesisSupported := true
    speechRecognitionSupported := true
    currentlySpeakingMessageId := some ("m1")
    speechSpeaking := true
    requestCount := 0 }

/-- A concrete service environment with the API key absent, used by
witnesses. -/
def sampleFailEnv : ServiceEnv :=
  { apiKeyPresent := false, createChatFails := none, sendFails := none, streamChunks := [] }

/-! ### Lemmas: decimal rendering and message identifiers -/

theorem ofDecDigits_decDigitsCore : ∀ fuel n, n ≤ fuel → ofDecDigits (decDigitsCore fuel n) = n := by
  intro fuel
  induction fuel with
  | zero =>
    intro n h
    have hn : n = 0 := Nat.le_zero.mp h
    subst hn
    rfl
  | succ f ih =>
    intro n h
    match n with
    | 0 => rfl
    | m + 1 =>
      have hdiv : (m + 1) / 10 ≤ f := by
        have h1 : (m + 1) / 10 < m + 1 := Nat.div_lt_self (Nat.succ_pos m) (by omega)
        omega
      show ofDecDigits ((m + 1) % 10 :: decDigitsCore f ((m + 1) / 10)) = m + 1
      rw [ofDecDigits, ih _ hdiv]
      omega

theorem ofDecDigits_decDigits (n : Nat) : ofDecDigits (decDigits n) = n :=
  ofDecDigits_decDigitsCore n n (Nat.le_refl n)

theorem decDigitsCore_lt_ten : ∀ fuel n d, d ∈ decDigitsCore fuel n → d < 10 := by
  intro fuel
  induction fuel with
  | zero => intro n d h; simp [decDigitsCore] at h
  | succ f ih =>
    intro n d h
    match n with
    | 0 => simp [decDigitsCore] at h
    | m + 1 =>
      rw [decDigitsCore] at h
      rcases List.mem_cons.mp h with h1 | h2
      · subst h1; exact Nat.mod_lt _ (by omega)
      · exact ih _ _ h2

theorem decDigits_lt_ten (n d : Nat) (h : d ∈ decDigits n) : d < 10 :=
  decDigitsCore_lt_ten n n d h

theorem charToDigit_digitChar (d : Nat) (h : d < 10) : charToDigit (Nat.digitChar d) = d := by
  interval_cases d <;> rfl

theorem natFromString_natToString (n : Nat) : natFromString (natToString n) = n := by
  by_cases h : n = 0
  · subst h; rfl
  · unfold natToString natFromString
    rw [if_neg h]
    have hmap : ((decDigits n).reverse.map Nat.digitChar).map charToDigit = (decDigits n).reverse := by
      rw [List.map_map]
      have := List.map_congr_left (l := (decDigits n).reverse)
        (f := charToDigit ∘ Nat.digitChar) (g := id)
        (fun d hd => charToDigit_digitChar d (decDigits_lt_ten n d (List.mem_reverse.mp hd)))
      rw [this, List.map_id]
    show ofDecDigits ((((decDigits n).reverse.map Nat.digitChar).map charToDigit).reverse) = n
    rw [hmap, List.reverse_reverse, ofDecDigits_decDigits]

theorem natToString_inj {a b : Nat} (h : natToString a = natToString b) : a = b := by
  have := congrArg natFromString h
  rwa [natFromString_natToString, natFromString_natToString] at this

theorem natToString_data_ne_nil (n : Nat) : (natToString n).data ≠ [] := by
  by_cases h : n = 0
  · subst h; intro hc; simp [natToString] at hc
  · unfold natToString
    rw [if_neg h]
    intro hc
    have hne : decDigits n ≠ [] := by
      intro hd
      have := ofDecDigits_decDigits n
      rw [hd] at this
      exact h this.symm
    simp at hc
    exact hne hc

theorem natToString_getLast_digit (n : Nat) :
    ∃ d, d < 10 ∧ (natToString n).data.getLast? = some (Nat.digitChar d) := by
  by_cases h : n = 0
  · subst h
    exact ⟨0, by omega, by rfl⟩
  · unfold natToString
    rw [if_neg h]
    match hm : n with
    | 0 => exact absurd rfl h
    | m + 1 =>
      refine ⟨(m + 1) % 10, Nat.mod_lt _ (by omega), ?_⟩
      show ((decDigits (m + 1)).reverse.map Nat.digitChar).getLast? = _
      rw [← List.head?_reverse, List.map_reverse, List.reverse_reverse, List.head?_map]
      have : decDigits (m + 1) = (m + 1) % 10 :: decDigitsCore m ((m + 1) / 10) := by
        show decDigitsCore (m + 1) (m + 1) = _
        rw [decDigitsCore]
      rw [this]
      rfl

theorem head?_append_of_ne_nil {α : Type} (l1 l2 : List α) (h : l1 ≠ []) :
    (l1 ++ l2).head? = l1.head? := by
  cases l1 with
  | nil => exact absurd rfl h
  | cons a l => rfl

theorem userMsgId_inj {a b : Nat} (h : userMsgId a = userMsgId b) : a = b := by
  have hd := congrArg String.data h
  simp only [userMsgId, String.data_append] at hd
  exact natToString_inj (String.ext (List.append_cancel_right hd))

theorem aiMsgId_inj {a b : Nat} (h : aiMsgId a = aiMsgId b) : a = b := by
  have hd := congrArg String.data h
  simp only [aiMsgId, String.data_append] at hd
  exact natToString_inj (String.ext (List.append_cancel_right hd))

theorem resetGreetId_inj {a b : Nat} (h : resetGreetId a = resetGreetId b) : a = b := by
  have hd := congrArg String.data h
  simp only [resetGreetId, String.data_append] at hd
  exact natToString_inj (String.ext (List.append_cancel_left hd))

theorem userMsgId_lastChar (a : Nat) : (userMsgId a).data.getLast? = some 'r' := by
  simp only [userMsgId, String.data_append]
  rw [List.getLast?_append_of_ne_nil _ (by decide)]
  decide

theorem aiMsgId_lastChar (a : Nat) : (aiMsgId a).data.getLast? = some 'i' := by
  simp only [aiMsgId, String.data_append]
  rw [List.getLast?_append_of_ne_nil _ (by decide)]
  decide

theorem initGreetId_lastChar (a : Nat) :
    ∃ d, d < 10 ∧ (initGreetId a).data.getLast? = some (Nat.digitChar d) := by
  obtain ⟨d, hd, hlast⟩ := natToString_getLast_digit a
  refine ⟨d, hd, ?_⟩
  simp only [initGreetId, String.data_append]
  rw [List.getLast?_append_of_ne_nil _ (natToString_data_ne_nil a)]
  exact hlast

theorem resetGreetId_lastChar (a : Nat) :
    ∃ d, d < 10 ∧ (resetGreetId a).data.getLast? = some (Nat.digitChar d) := by
  obtain ⟨d, hd, hlast⟩ := natToString_getLast_digit a
  refine ⟨d, hd, ?_⟩
  simp only [resetGreetId, String.data_append]
  rw [List.getLast?_append_of_ne_nil _ (natToString_data_ne_nil a)]
  exact hlast

theorem digitChar_ne_r (d : Nat) (h : d < 10) : Nat.digitChar d ≠ 'r' := by
  interval_cases d <;> decide

theorem digitChar_ne_i (d : Nat) (h : d < 10) : Nat.digitChar d ≠ 'i' := by
  interval_cases d <;> decide

theorem userMsgId_ne_aiMsgId (a b : Nat) : userMsgId a ≠ aiMsgId b := by
  intro h
  have := congrArg (fun s => s.data.getLast?) h
  rw [show (fun s => s.data.getLast?) (userMsgId a) = (userMsgId a).data.getLast? from rfl,
    show (fun s => s.data.getLast?) (aiMsgId b) = (aiMsgId b).data.getLast? from rfl,
    userMsgId_lastChar, aiMsgId_lastChar] at this
  simp at this

theorem userMsgId_ne_initGreetId (a b : Nat) : userMsgId a ≠ initGreetId b := by
  intro h
  obtain ⟨d, hd, hlast⟩ := initGreetId_lastChar b
  have := congrArg (fun s => s.data.getLast?) h
  rw [show (fun s => s.data.getLast?) (userMsgId a) = (userMsgId a).data.getLast? from rfl,
    show (fun s => s.data.getLast?) (initGreetId b) = (initGreetId b).data.getLast? from rfl,
    userMsgId_lastChar, hlast] at this
  exact digitChar_ne_r d hd (Option.some.inj this).symm

theorem userMsgId_ne_resetGreetId (a b : Nat) : userMsgId a ≠ resetGreetId b := by
  intro h
  obtain ⟨d, hd, hlast⟩ := resetGreetId_lastChar b
  have := congrArg (fun s => s.data.getLast?) h
  rw [show (fun s => s.data.getLast?) (userMsgId a) = (userMsgId a).data.getLast? from rfl,
    show (fun s => s.data.getLast?) (resetGreetId b) = (resetGreetId b).data.getLast? from rfl,
    userMsgId_lastChar, hlast] at this
  exact digitChar_ne_r d hd (Option.some.inj this).symm

theorem aiMsgId_ne_initGreetId (a b : Nat) : aiMsgId a ≠ initGreetId b := by
  intro h
  obtain ⟨d, hd, hlast⟩ := initGreetId_lastChar b
  have := congrArg (fun s => s.data.getLast?) h
  rw [show (fun s => s.data.getLast?) (aiMsgId a) = (aiMsgId a).data.getLast? from rfl,
    show (fun s => s.data.getLast?) (initGreetId b) = (initGreetId b).data.getLast? from rfl,
    aiMsgId_lastChar, hlast] at this
  exact digitChar_ne_i d hd (Option.some.inj this).symm

theorem aiMsgId_ne_resetGreetId (a b : Nat) : aiMsgId a ≠ resetGreetId b := by
  intro h
  obtain ⟨d, hd, hlast⟩ := resetGreetId_lastChar b
  have := congrArg (fun s => s.data.getLast?) h
  rw [show (fun s => s.data.getLast?) (aiMsgId a) = (aiMsgId a).data.getLast? from rfl,
    show (fun s => s.data.getLast?) (resetGreetId b) = (resetGreetId b).data.getLast? from rfl,
    aiMsgId_lastChar, hlast] at this
  exact digitChar_ne_i d hd (Option.some.inj this).symm

theorem initGreetId_ne_resetGreetId (a b : Nat) : initGreetId a ≠ resetGreetId b := by
  intro h
  have := congrArg (fun s => s.data.head?) h
  rw [show (fun s => s.data.head?) (initGreetId a) = (initGreetId a).data.head? from rfl,
    show (fun s => s.data.head?) (resetGreetId b) = (resetGreetId b).data.head? from rfl] at this
  simp only [initGreetId, resetGreetId, String.data_append] at this
  rw [head?_append_of_ne_nil _ _ (by decide), head?_append_of_ne_nil _ _ (by decide)] at this
  simp at this

/-! ### Lemmas: the streaming loop and send operation -/

theorem cancelSpeechIfSpeaking_messages (s : AppState) :
    (cancelSpeechIfSpeaking s).messages = s.messages := by
  unfold cancelSpeechIfSpeaking
  split <;> rfl

theorem sendPrelude_messages (nowU nowA : Nat) (text : String) (s : AppState) :
    (sendPrelude nowU nowA text s).messages
      = s.messages ++ [userMessage nowU text] ++ [aiPlaceholder nowA] := by
  unfold sendPrelude
  simp [cancelSpeechIfSpeaking_messages]

theorem streamLoop_msgs_append (aid : String) :
    ∀ (cs : List (Option String)) (acc : String) (xs ys : List Message),
      (streamLoop aid cs acc (xs ++ ys)).2
        = (streamLoop aid cs acc xs).2 ++ (streamLoop aid cs acc ys).2 := by
  intro cs
  induction cs with
  | nil => intro acc xs ys; rfl
  | cons c cs ih =>
    intro acc xs ys
    match c with
    | none => exact ih acc xs ys
    | some t =>
      by_cases h : t == ""
      · simp only [streamLoop, h, if_pos]
        exact ih acc xs ys
      · simp only [streamLoop, h, if_neg, Bool.false_eq_true, not_false_iff, List.map_append]
        exact ih (acc ++ t) _ _

theorem streamLoop_nomatch (aid : String) :
    ∀ (cs : List (Option String)) (acc : String) (msgs : List Message),
      (∀ m ∈ msgs, (m.id == aid) = false) → (streamLoop aid cs acc msgs).2 = msgs := by
  intro cs
  induction cs with
  | nil => intro acc msgs _; rfl
  | cons c cs ih =>
    intro acc msgs h
    match c with
    | none => exact ih acc msgs h
    | some t =>
      by_cases ht : t == ""
      · simp only [streamLoop, ht, if_pos]
        exact ih acc msgs h
      · simp only [streamLoop, ht, Bool.false_eq_true, if_neg, not_false_iff]
        have hid : msgs.map (fun m => if m.id == aid then { m with text := acc ++ t } else m) = msgs := by
          have := List.map_congr_left (l := msgs)
            (f := fun m => if m.id == aid then { m with text := acc ++ t } else m) (g := id)
            (fun m hm => by simp [h m hm])
          rw [this, List.map_id]
        rw [hid]
        exact ih (acc ++ t) msgs h

theorem streamLoop_single (aid : String) :
    ∀ (cs : List (Option String)) (acc : String) (m : Message),
      (m.id == aid) = true → m.text = acc →
      (streamLoop aid cs acc [m]).2 = [{ m with text := acc ++ fragConcat cs }] := by
  intro cs
  induction cs with
  | nil =>
    intro acc m hid htext
    show [m] = [{ m with text := acc ++ fragConcat [] }]
    rw [show fragConcat [] = "" from rfl, String.append_empty, ← htext]
  | cons c cs ih =>
    intro acc m hid htext
    match c with
    | none => exact ih acc m hid htext
    | some t =>
      by_cases ht : t == ""
      · have ht' : t = "" := by simpa using ht
        simp only [streamLoop, ht, if_pos]
        rw [ih acc m hid htext, fragConcat, ht', String.empty_append]
      · simp only [streamLoop, ht, Bool.false_eq_true, if_neg, not_false_iff, List.map_cons,
          List.map_nil, hid, if_pos]
        rw [ih (acc ++ t) { m with text := acc ++ t } (by simpa using hid) rfl]
        rw [fragConcat, ← String.append_assoc]

/-- Running the entire streaming loop on the transcript prepared by
`sendPrelude`: the earlier messages and the user message pass through
unchanged, and the assistant placeholder accumulates the concatenation of
the fragments. -/
theorem sendPrelude_streamLoop (nowU nowA : Nat) (text : String) (s : AppState)
    (cs : List (Option String))
    (hfresh : ∀ m ∈ s.messages, m.id ≠ aiMsgId nowA) :
    (streamLoop (aiMsgId nowA) cs "" (sendPrelude nowU nowA text s).messages).2
      = s.messages ++ [userMessage nowU text, { aiPlaceholder nowA with text := fragConcat cs }] := by
  rw [sendPrelude_messages, streamLoop_msgs_append, streamLoop_msgs_append]
  rw [streamLoop_nomatch _ _ _ _ (fun m hm => beq_eq_false_iff_ne.mpr (hfresh m hm))]
  rw [streamLoop_nomatch _ _ _ [userMessage nowU text]
    (by intro m hm; rw [List.mem_singleton.mp hm]; exact beq_eq_false_iff_ne.mpr (userMsgId_ne_aiMsgId nowU nowA))]
  rw [streamLoop_single _ cs "" (aiPlaceholder nowA) (by simp [aiPlaceholder]) rfl]
  simp [String.empty_append]

theorem streamLoop_ids (aid : String) :
    ∀ (cs : List (Option String)) (acc : String) (msgs : List Message),
      ((streamLoop aid cs acc msgs).2).map Message.id = msgs.map Message.id := by
  intro cs
  induction cs with
  | nil => intro acc msgs; rfl
  | cons c cs ih =>
    intro acc msgs
    match c with
    | none => exact ih acc msgs
    | some t =>
      by_cases ht : t == ""
      · simp only [streamLoop, ht, if_pos]
        exact ih acc msgs
      · simp only [streamLoop, ht, Bool.false_eq_true, if_neg, not_false_iff]
        rw [ih (acc ++ t) _, List.map_map]
        exact List.map_congr_left (fun m _ => by by_cases hm : m.id = aid <;> simp [hm])

/-- A successful send appends the user message and the assistant message
carrying the concatenation of the streamed fragments. -/
theorem handleSendMessage_messages_ok (nowU nowA : Nat) (text : String) (cs : List (Option String))
    (s : AppState) (hkey : s.apiKeyMissing = false)
    (hfresh : ∀ m ∈ s.messages, m.id ≠ aiMsgId nowA) :
    (handleSendMessage nowU nowA text { chunks := cs, outcome := Except.ok () } s).messages
      = s.messages ++ [userMessage nowU text, { aiPlaceholder nowA with text := fragConcat cs }] := by
  unfold handleSendMessage
  simp only [hkey, Bool.false_eq_true, if_neg, not_false_iff]
  exact sendPrelude_streamLoop nowU nowA text s cs hfresh

/-- A failing send appends the user message and the assistant message whose
text was replaced by the failure notice. -/
theorem handleSendMessage_messages_error (nowU nowA : Nat) (text e : String)
    (cs : List (Option String)) (s : AppState) (hkey : s.apiKeyMissing = false)
    (hfresh : ∀ m ∈ s.messages, m.id ≠ aiMsgId nowA) :
    (handleSendMessage nowU nowA text { chunks := cs, outcome := Except.error e } s).messages
      = s.messages ++ [userMessage nowU text,
          { aiPlaceholder nowA with text := "Sorry, I hit a snag! Error: " ++ e }] := by
  unfold handleSendMessage
  simp only [hkey, Bool.false_eq_true, if_neg, not_false_iff]
  rw [sendPrelude_streamLoop nowU nowA text s cs hfresh]
  rw [List.map_append]
  have h1 : s.messages.map (fun m =>
      if m.id == aiMsgId nowA then { m with text := "Sorry, I hit a snag! Error: " ++ e } else m)
      = s.messages := by
    have := List.map_congr_left (l := s.messages)
      (f := fun m => if m.id == aiMsgId nowA then { m with text := "Sorry, I hit a snag! Error: " ++ e } else m)
      (g := id)
      (fun m hm => by simp [beq_eq_false_iff_ne.mpr (hfresh m hm)])
    rw [this, List.map_id]
  rw [h1]
  simp only [List.map_cons, List.map_nil]
  rw [if_neg (by simp [userMessage]; exact userMsgId_ne_aiMsgId nowU nowA)]
  rw [if_pos (by simp [aiPlaceholder])]

/-- Sends extend the transcript id sequence by the two freshly built ids
(and leave it unchanged when the key is missing). -/
theorem handleSendMessage_ids (nowU nowA : Nat) (text : String) (stream : StreamResult)
    (s : AppState) :
    (handleSendMessage nowU nowA text stream s).messages.map Message.id
      = if s.apiKeyMissing then s.messages.map Message.id
        else s.messages.map Message.id ++ [userMsgId nowU, aiMsgId nowA] := by
  by_cases hkey : s.apiKeyMissing
  · simp [handleSendMessage, hkey]
  · simp only [hkey, Bool.false_eq_true, if_neg, not_false_iff]
    unfold handleSendMessage
    simp only [hkey, Bool.false_eq_true, if_neg, not_false_iff]
    have hpre : (sendPrelude nowU nowA text s).messages.map Message.id
        = s.messages.map Message.id ++ [userMsgId nowU, aiMsgId nowA] := by
      rw [sendPrelude_messages]
      simp [userMessage, aiPlaceholder]
    match stream with
    | { chunks := cs, outcome := Except.ok () } =>
      show ((streamLoop (aiMsgId nowA) cs "" (sendPrelude nowU nowA text s).messages).2).map Message.id = _
      rw [streamLoop_ids, hpre]
    | { chunks := cs, outcome := Except.error e } =>
      show (((streamLoop (aiMsgId nowA) cs "" (sendPrelude nowU nowA text s).messages).2).map
        (fun m => if m.id == aiMsgId nowA then { m with text := "Sorry, I hit a snag! Error: " ++ e } else m)).map Message.id = _
      rw [List.map_map]
      have : ((streamLoop (aiMsgId nowA) cs "" (sendPrelude nowU nowA text s).messages).2).map
          (Message.id ∘ fun m => if m.id == aiMsgId nowA then { m with text := "Sorry, I hit a snag! Error: " ++ e } else m)
          = ((streamLoop (aiMsgId nowA) cs "" (sendPrelude nowU nowA text s).messages).2).map Message.id := by
        exact List.map_congr_left (fun m _ => by by_cases hm2 : m.id = aiMsgId nowA <;> simp [hm2])
      rw [this, streamLoop_ids, hpre]

theorem handlePlaySpeech_messages (text msgId : String) (s : AppState) :
    (handlePlaySpeech text msgId s).1.messages = s.messages := by
  unfold handlePlaySpeech
  split
  · rfl
  · split
    · split <;> rfl
    · rfl

theorem handleStopSpeech_messages (s : AppState) :
    (handleStopSpeech s).messages = s.messages := by
  unfold handleStopSpeech
  split <;> rfl

theorem handleSpeakerClick_messages (m : Message) (s : AppState) :
    (handleSpeakerClick m s).1.messages = s.messages := by
  unfold handleSpeakerClick
  split
  · exact handleStopSpeech_messages s
  · exact handlePlaySpeech_messages m.text m.id s

theorem handleResetConversation_messages (now : Nat) (s : AppState) :
    (handleResetConversation now s).messages = [resetGreeting now] := rfl

theorem findMessageText_append_nomatch (aid : String) (xs ys : List Message)
    (h : ∀ m ∈ xs, (m.id == aid) = false) :
    findMessageText aid (xs ++ ys) = findMessageText aid ys := by
  unfold findMessageText
  induction xs with
  | nil => rfl
  | cons a xs ih =>
    rw [List.cons_append, List.find?_cons_of_neg _ (by rw [h a (List.mem_cons_self a xs)]; exact Bool.false_ne_true)]
    exact ih (fun m hm => h m (List.mem_cons_of_mem a hm))

/-! ### Claim theorems -/

/-- C1: For every sequence of streamed text fragments consumed by
`handleSendMessage`, after each processed prefix of the stream the text of
the in-progress assistant message equals the ordered concatenation of all
fragments received so far; fragments that are empty or absent contribute
nothing. -/
theorem assistant_text_is_fragment_concat
    (nowU nowA : Nat) (text : String) (s : AppState) (stream : StreamResult)
    (p : List (Option String))
    (hfresh : ∀ m ∈ s.messages, m.id ≠ aiMsgId nowA)
    (hpre : p <+: stream.chunks) :
    findMessageText (aiMsgId nowA)
      ((streamLoop (aiMsgId nowA) p "" (sendPrelude nowU nowA text s).messages).2)
      = some (fragConcat p) := by
  rw [sendPrelude_streamLoop nowU nowA text s p hfresh]
  rw [findMessageText_append_nomatch _ _ _ (fun m hm => beq_eq_false_iff_ne.mpr (hfresh m hm))]
  unfold findMessageText
  rw [List.find?_cons_of_neg _ (by simp [userMessage]; exact userMsgId_ne_aiMsgId nowU nowA)]
  rw [List.find?_cons_of_pos _ (by simp [aiPlaceholder])]
  rfl

/-- Witness for C1 at a concrete state and stream prefix. -/
theorem assistant_text_is_fragment_concat_witness :
    (∀ m ∈ (initApp true true true 0).messages, m.id ≠ aiMsgId 5) ∧
    ([some ("Hel"), none] <+: [some ("Hel"), none, some ("lo")]) ∧
    findMessageText (aiMsgId 5)
      ((streamLoop (aiMsgId 5) [some ("Hel"), none] ""
        (sendPrelude 5 5 ("hi") (initApp true true true 0)).messages).2)
      = some (fragConcat [some ("Hel"), none]) :=
  ⟨by decide, ⟨[some ("lo")], rfl⟩,
    assistant_text_is_fragment_concat 5 5 ("hi") (initApp true true true 0)
      { chunks := [some ("Hel"), none, some ("lo")], outcome := Except.ok () }
      [some ("Hel"), none] (by decide) ⟨[some ("lo")], rfl⟩⟩

/-- C2: In every state, resetting the conversation leaves the transcript
containing exactly one fresh greeting message whose sender is the assistant,
clears the error banner, and clears the loading flag. -/
theorem reset_clears_conversation (now : Nat) (s : AppState) :
    (handleResetConversation now s).messages = [resetGreeting now] ∧
    (resetGreeting now).sender = SenderType.AI ∧
    (handleResetConversation now s).error = none ∧
    (handleResetConversation now s).isLoading = false :=
  ⟨rfl, rfl, rfl, rfl⟩

/-- C5: In every application state reachable from the initial mount by any
sequence of operations, at most one message identifier is marked as
currently speaking. -/
theorem at_most_one_marked_speaking (akp synth recog : Bool) (now : Nat) (ops : List AppOp)
    (i j : String)
    (hi : isMarkedSpeaking (runApp (initApp akp synth recog now) ops) i)
    (hj : isMarkedSpeaking (runApp (initApp akp synth recog now) ops) j) :
    i = j := by
  unfold isMarkedSpeaking at hi hj
  rw [hi] at hj
  exact Option.some.inj hj

/-- Witness for C5 after a play operation marks a message. -/
theorem at_most_one_marked_speaking_witness :
    isMarkedSpeaking (runApp (initApp true true true 0) [AppOp.play ("hello") ("m1")]) ("m1") ∧
    isMarkedSpeaking (runApp (initApp true true true 0) [AppOp.play ("hello") ("m1")]) ("m1") ∧
    ("m1" : String) = ("m1" : String) :=
  ⟨rfl, rfl,
    at_most_one_marked_speaking true true true 0 [AppOp.play ("hello") ("m1")]
      ("m1") ("m1") rfl rfl⟩

/-- C9: If playback of message `m` is active and the user cancels it — by
the speaker toggle of that message or by the stop handler — the currently
speaking marker is cleared and no new utterance is started. -/
theorem cancel_playback_clears_marker (s : AppState) (m : Message)
    (hsup : s.speechSynthesisSupported = true)
    (hspeak : s.speechSpeaking = true)
    (hcur : s.currentlySpeakingMessageId = some m.id) :
    handleSpeakerClick m s
      = ({ s with currentlySpeakingMessageId := none, speechSpeaking := false }, false) ∧
    handleStopSpeech s
      = { s with currentlySpeakingMessageId := none, speechSpeaking := false } := by
  have hstop : handleStopSpeech s
      = { s with currentlySpeakingMessageId := none, speechSpeaking := false } := by
    unfold handleStopSpeech
    rw [hsup, hspeak]
    rfl
  refine ⟨?_, hstop⟩
  unfold handleSpeakerClick
  rw [hcur]
  simp only [beq_self_eq_true, if_true]
  rw [hstop]

/-- Witness for C9 at a concrete speaking state. -/
theorem cancel_playback_clears_marker_witness :
    (sampleSpeakingState.speechSynthesisSupported = true) ∧
    (sampleSpeakingState.speechSpeaking = true) ∧
    (sampleSpeakingState.currentlySpeakingMessageId = some sampleMessage.id) ∧
    (handleSpeakerClick sampleMessage sampleSpeakingState
      = ({ sampleSpeakingState with currentlySpeakingMessageId := none, speechSpeaking := false },
        false) ∧
     handleStopSpeech sampleSpeakingState
      = { sampleSpeakingState with currentlySpeakingMessageId := none, speechSpeaking := false }) :=
  ⟨rfl, rfl, rfl, cancel_playback_clears_marker sampleSpeakingState sampleMessage rfl rfl rfl⟩

theorem recognitionOnEnd_of_empty (st : InputState) (h : st.latestFinalTranscript = "") :
    recognitionOnEnd st = ({ st with isRecording := false }, none) := by
  simp [recognitionOnEnd, h]

theorem recognitionOnEnd_of_nonempty (st : InputState) (h : st.latestFinalTranscript ≠ "") :
    recognitionOnEnd st
      = ({ st with isRecording := false, inputValue := "", latestFinalTranscript := "" },
        some st.latestFinalTranscript) := by
  simp [recognitionOnEnd, h]

theorem runRecEvents_ws_ref_empty (evs : List RecEvent) :
    ∀ st : InputState, st.latestFinalTranscript = "" →
      (∀ ev ∈ evs, eventWhitespaceOnly ev = true) →
      (runRecEvents st evs).latestFinalTranscript = "" := by
  induction evs with
  | nil => intro st h _; exact h
  | cons ev evs ih =>
    intro st h hall
    show (runRecEvents (stepRec st ev) evs).latestFinalTranscript = ""
    refine ih (stepRec st ev) ?_ (fun e he => hall e (List.mem_cons_of_mem ev he))
    match ev with
    | RecEvent.error e => exact rfl
    | RecEvent.result rs i =>
      have hws : jsTrim (joinTranscripts (rs.drop i)) = "" := by
        have := hall _ (List.mem_cons_self (RecEvent.result rs i) evs)
        simpa [eventWhitespaceOnly] using this
      show (recognitionOnResult rs i st).latestFinalTranscript = ""
      unfold recognitionOnResult
      match rs.getLast? with
      | none => exact h
      | some r =>
        by_cases hf : r.isFinal = true
        · simp only [hf, if_true]
          exact hws
        · simp only [hf, if_false, Bool.false_eq_true]
          exact h

theorem runRecEvents_nofinal_ref_empty (evs : List RecEvent) :
    ∀ st : InputState, st.latestFinalTranscript = "" →
      (∀ ev ∈ evs, eventFinalizes ev = false) →
      (runRecEvents st evs).latestFinalTranscript = "" := by
  induction evs with
  | nil => intro st h _; exact h
  | cons ev evs ih =>
    intro st h hall
    show (runRecEvents (stepRec st ev) evs).latestFinalTranscript = ""
    refine ih (stepRec st ev) ?_ (fun e he => hall e (List.mem_cons_of_mem ev he))
    match ev with
    | RecEvent.error e => exact rfl
    | RecEvent.result rs i =>
      have hnf : (match rs.getLast? with | some r => r.isFinal | none => false) = false :=
        hall _ (List.mem_cons_self (RecEvent.result rs i) evs)
      show (recognitionOnResult rs i st).latestFinalTranscript = ""
      unfold recognitionOnResult
      match hlast : rs.getLast? with
      | none => exact h
      | some r =>
        rw [hlast] at hnf
        simp only at hnf
        simp only [hnf, if_false, Bool.false_eq_true]
        exact h

/-- C3: For every input string that is empty or consists only of whitespace,
submitting it — via the composer submit path or via a recognition session
whose captured transcripts are all whitespace-only — never creates a user
message in the transcript. -/
theorem whitespace_input_never_creates_user_message
    (nowU nowA : Nat) (stream : StreamResult) (app : AppState) (st : InputState)
    (evs : List RecEvent)
    (hcomposer : jsTrim st.inputValue = "")
    (hvoice : ∀ ev ∈ evs, eventWhitespaceOnly ev = true) :
    (composerSubmit nowU nowA stream app st).1.messages = app.messages ∧
    (voiceSession nowU nowA stream app st evs).1.messages = app.messages := by
  constructor
  · unfold composerSubmit handleSubmit
    rw [hcomposer]
    simp
  · unfold voiceSession runSession
    have href : (runRecEvents (toggleRecordingStart st) evs).latestFinalTranscript = "" :=
      runRecEvents_ws_ref_empty evs _ rfl hvoice
    rw [recognitionOnEnd_of_empty _ href]

/-- Witness for C3: a whitespace composer value and a whitespace-only voice
session leave the transcript unchanged. -/
theorem whitespace_input_never_creates_user_message_witness :
    jsTrim ("   ") = "" ∧
    (∀ ev ∈ ([RecEvent.result [{ transcript := "  ", isFinal := true }] 0] : List RecEvent),
      eventWhitespaceOnly ev = true) ∧
    ((composerSubmit 5 5 { chunks := [], outcome := Except.ok () } (initApp true true true 0)
        { sampleInput with inputValue := "   " }).1.messages
      = (initApp true true true 0).messages ∧
     (voiceSession 5 5 { chunks := [], outcome := Except.ok () } (initApp true true true 0)
        { sampleInput with inputValue := "   " }
        [RecEvent.result [{ transcript := "  ", isFinal := true }] 0]).1.messages
      = (initApp true true true 0).messages) :=
  ⟨by decide, by decide,
    whitespace_input_never_creates_user_message 5 5 { chunks := [], outcome := Except.ok () }
      (initApp true true true 0) { sampleInput with inputValue := "   " }
      [RecEvent.result [{ transcript := "  ", isFinal := true }] 0]
      (by decide) (by decide)⟩

/-- C4: A recognition session's termination resolves into exactly one of
submitting the captured transcript or a no-op: a session with no finalized
transcript submits nothing, a session ending in a platform error submits
nothing, and once a session submits, the candidate is cleared so the same
captured transcript cannot be submitted again. -/
theorem recognition_end_submission_exclusive (st : InputState) (evs : List RecEvent) :
    ((∀ ev ∈ evs, eventFinalizes ev = false) → (runSession st evs).2 = none) ∧
    (∀ e, (runSession st (evs ++ [RecEvent.error e])).2 = none) ∧
    (∀ t, (runSession st evs).2 = some t →
      (runSession st evs).1.latestFinalTranscript = "" ∧
      (recognitionOnEnd (runSession st evs).1).2 = none) := by
  refine ⟨?_, ?_, ?_⟩
  · intro hall
    unfold runSession
    have href : (runRecEvents (toggleRecordingStart st) evs).latestFinalTranscript = "" :=
      runRecEvents_nofinal_ref_empty evs _ rfl hall
    rw [recognitionOnEnd_of_empty _ href]
  · intro e
    unfold runSession runRecEvents
    rw [List.foldl_append]
    rw [recognitionOnEnd_of_empty _ rfl]
  · intro t hsub
    unfold runSession at hsub ⊢
    by_cases href : (runRecEvents (toggleRecordingStart st) evs).latestFinalTranscript = ""
    · rw [recognitionOnEnd_of_empty _ href] at hsub
      exact absurd hsub (by simp)
    · rw [recognitionOnEnd_of_nonempty _ href] at hsub ⊢
      refine ⟨rfl, ?_⟩
      rw [recognitionOnEnd_of_empty _ rfl]

/-- Witness for C4: a non-finalizing session submits nothing, and a
finalizing session submits once with the candidate cleared afterwards. -/
theorem recognition_end_submission_exclusive_witness :
    (∀ ev ∈ ([RecEvent.result [{ transcript := "hi", isFinal := false }] 0] : List RecEvent),
      eventFinalizes ev = false) ∧
    (runSession sampleInput [RecEvent.result [{ transcript := "hi", isFinal := false }] 0]).2
      = none ∧
    (runSession sampleInput [RecEvent.result [{ transcript := " hello ", isFinal := true }] 0]).2
      = some ("hello") ∧
    ((runSession sampleInput
        [RecEvent.result [{ transcript := " hello ", isFinal := true }] 0]).1.latestFinalTranscript
      = "" ∧
     (recognitionOnEnd (runSession sampleInput
        [RecEvent.result [{ transcript := " hello ", isFinal := true }] 0]).1).2 = none) :=
  ⟨by decide,
    (recognition_end_submission_exclusive sampleInput
      [RecEvent.result [{ transcript := "hi", isFinal := false }] 0]).1 (by decide),
    by decide,
    (recognition_end_submission_exclusive sampleInput
      [RecEvent.result [{ transcript := " hello ", isFinal := true }] 0]).2.2 ("hello")
      (by decide)⟩

theorem cancelSpeechIfSpeaking_requestCount (s : AppState) :
    (cancelSpeechIfSpeaking s).requestCount = s.requestCount := by
  unfold cancelSpeechIfSpeaking
  split <;> rfl

/-- C7: When the chat stream raises an error during `handleSendMessage`, the
in-progress assistant message is marked as failed (its text becomes the
error notice), the dismissible error banner is set, the transcript is
otherwise untouched and loading is cleared so further sends remain possible,
and exactly one stream request was issued — the failed send is never retried
automatically. -/
theorem stream_error_marks_message_failed
    (nowU nowA : Nat) (text e : String) (cs : List (Option String)) (s : AppState)
    (hkey : s.apiKeyMissing = false)
    (hfresh : ∀ m ∈ s.messages, m.id ≠ aiMsgId nowA) :
    (handleSendMessage nowU nowA text { chunks := cs, outcome := Except.error e } s).messages
      = s.messages ++ [userMessage nowU text,
          { aiPlaceholder nowA with text := "Sorry, I hit a snag! Error: " ++ e }] ∧
    (handleSendMessage nowU nowA text { chunks := cs, outcome := Except.error e } s).error
      = some ("Tejaswi seems to be having a moment... 🤯 (" ++ e ++ ")") ∧
    (handleSendMessage nowU nowA text { chunks := cs, outcome := Except.error e } s).isLoading
      = false ∧
    (handleSendMessage nowU nowA text { chunks := cs, outcome := Except.error e } s).requestCount
      = s.requestCount + 1 := by
  refine ⟨handleSendMessage_messages_error nowU nowA text e cs s hkey hfresh, ?_, ?_, ?_⟩
  · unfold handleSendMessage
    simp only [hkey, Bool.false_eq_true, if_neg, not_false_iff]
  · unfold handleSendMessage
    simp only [hkey, Bool.false_eq_true, if_neg, not_false_iff]
  · unfold handleSendMessage
    simp only [hkey, Bool.false_eq_true, if_neg, not_false_iff]
    show (sendPrelude nowU nowA text s).requestCount = s.requestCount + 1
    unfold sendPrelude
    show (cancelSpeechIfSpeaking s).requestCount + 1 = s.requestCount + 1
    rw [cancelSpeechIfSpeaking_requestCount]

/-- Witness for C7 at a concrete state and failing stream. -/
theorem stream_error_marks_message_failed_witness :
    ((initApp true true true 0).apiKeyMissing = false) ∧
    (∀ m ∈ (initApp true true true 0).messages, m.id ≠ aiMsgId 5) ∧
    ((handleSendMessage 5 5 ("hi") { chunks := [some ("a")], outcome := Except.error ("boom") }
        (initApp true true true 0)).messages
      = (initApp true true true 0).messages ++ [userMessage 5 ("hi"),
          { aiPlaceholder 5 with text := "Sorry, I hit a snag! Error: " ++ "boom" }] ∧
     (handleSendMessage 5 5 ("hi") { chunks := [some ("a")], outcome := Except.error ("boom") }
        (initApp true true true 0)).error
      = some ("Tejaswi seems to be having a moment... 🤯 (" ++ "boom" ++ ")") ∧
     (handleSendMessage 5 5 ("hi") { chunks := [some ("a")], outcome := Except.error ("boom") }
        (initApp true true true 0)).isLoading = false ∧
     (handleSendMessage 5 5 ("hi") { chunks := [some ("a")], outcome := Except.error ("boom") }
        (initApp true true true 0)).requestCount = (initApp true true true 0).requestCount + 1) :=
  ⟨rfl, by decide,
    stream_error_marks_message_failed 5 5 ("hi") ("boom") [some ("a")]
      (initApp true true true 0) rfl (by decide)⟩

/-- C8 (amended): provided a send's freshly built assistant id does not
already occur in the transcript (guaranteed when sends read distinct
timestamps), every operation either appends messages at the end of the
transcript (a send appends the user message and the assistant message, whose
text alone evolves while streaming), replaces the whole transcript by the
single fresh greeting (reset), or leaves the transcript unchanged; no
operation reorders messages, removes an individual message, or changes the
id, sender, or timestamp of an existing message. -/
theorem transcript_append_only (s : AppState) (op : AppOp) (h : AiFreshFor s op) :
    match op with
    | AppOp.send nowU nowA text _ =>
        (s.apiKeyMissing = false → ∃ t2, (stepApp s op).messages
            = s.messages ++ [userMessage nowU text, { aiPlaceholder nowA with text := t2 }])
        ∧ (s.apiKeyMissing = true → (stepApp s op).messages = s.messages)
    | AppOp.reset now => (stepApp s op).messages = [resetGreeting now]
    | _ => (stepApp s op).messages = s.messages := by
  match op with
  | AppOp.send nowU nowA text stream =>
    refine ⟨?_, ?_⟩
    · intro hkey
      have hfresh : ∀ m ∈ s.messages, m.id ≠ aiMsgId nowA := h
      match stream with
      | { chunks := cs, outcome := Except.ok () } =>
        exact ⟨fragConcat cs, handleSendMessage_messages_ok nowU nowA text cs s hkey hfresh⟩
      | { chunks := cs, outcome := Except.error e } =>
        exact ⟨"Sorry, I hit a snag! Error: " ++ e,
          handleSendMessage_messages_error nowU nowA text e cs s hkey hfresh⟩
    · intro hkey
      show (handleSendMessage nowU nowA text stream s).messages = s.messages
      unfold handleSendMessage
      simp [hkey]
  | AppOp.reset now => exact handleResetConversation_messages now s
  | AppOp.play text msgId => exact handlePlaySpeech_messages text msgId s
  | AppOp.stop => exact handleStopSpeech_messages s
  | AppOp.speakerClick m => exact handleSpeakerClick_messages m s
  | AppOp.utterEnd => rfl
  | AppOp.utterError => rfl
  | AppOp.speechError message => rfl

/-- Witness for C8 at a concrete send operation. -/
theorem transcript_append_only_witness :
    AiFreshFor (initApp true true true 0)
      (AppOp.send 5 5 ("hi") { chunks := [some ("a")], outcome := Except.ok () }) ∧
    (((initApp true true true 0).apiKeyMissing = false →
      ∃ t2, (stepApp (initApp true true true 0)
          (AppOp.send 5 5 ("hi") { chunks := [some ("a")], outcome := Except.ok () })).messages
        = (initApp true true true 0).messages
          ++ [userMessage 5 ("hi"), { aiPlaceholder 5 with text := t2 }]) ∧
     ((initApp true true true 0).apiKeyMissing = true →
      (stepApp (initApp true true true 0)
          (AppOp.send 5 5 ("hi") { chunks := [some ("a")], outcome := Except.ok () })).messages
        = (initApp true true true 0).messages)) :=
  ⟨by show ∀ m ∈ (initApp true true true 0).messages, m.id ≠ aiMsgId 5
      decide,
    transcript_append_only (initApp true true true 0)
      (AppOp.send 5 5 ("hi") { chunks := [some ("a")], outcome := Except.ok () })
      (by show ∀ m ∈ (initApp true true true 0).messages, m.id ≠ aiMsgId 5
          decide)⟩

/-- C8 counterexample: when two sends read the same `Date.now()` value, the
second send's streaming loop also rewrites the text of the first send's
assistant message (index 2 of 5, not the most recently appended assistant
message), so the append-only claim as stated fails on the code.  The message
at index 2 keeps its id but its text changes from the first response to the
second one. -/
theorem transcript_append_only_counterexample :
    ((runApp (initApp true true true 0)
        [AppOp.send 5 5 ("a") { chunks := [some ("x")], outcome := Except.ok () }]).messages[2]?).map
        Message.text = some ("x") ∧
    ((runApp (initApp true true true 0)
        [AppOp.send 5 5 ("a") { chunks := [some ("x")], outcome := Except.ok () },
         AppOp.send 5 5 ("b") { chunks := [some ("y")], outcome := Except.ok () }]).messages[2]?).map
        Message.text = some ("y") ∧
    ((runApp (initApp true true true 0)
        [AppOp.send 5 5 ("a") { chunks := [some ("x")], outcome := Except.ok () },
         AppOp.send 5 5 ("b") { chunks := [some ("y")], outcome := Except.ok () }]).messages[2]?).map
        Message.id = some (aiMsgId 5) ∧
    (runApp (initApp true true true 0)
        [AppOp.send 5 5 ("a") { chunks := [some ("x")], outcome := Except.ok () },
         AppOp.send 5 5 ("b") { chunks := [some ("y")], outcome := Except.ok () }]).messages.length
      = 5 := by decide

theorem IdFrom_mono {usedU usedA usedR : List Nat} {t0 : Nat} {i : String} (nU nA : Nat)
    (hi : IdFrom usedU usedA usedR t0 i) : IdFrom (nU :: usedU) (nA :: usedA) usedR t0 i := by
  rcases hi with ⟨t, ht, rfl⟩ | ⟨t, ht, rfl⟩ | ⟨t, ht, rfl⟩ | rfl
  · exact Or.inl ⟨t, List.mem_cons_of_mem nU ht, rfl⟩
  · exact Or.inr (Or.inl ⟨t, List.mem_cons_of_mem nA ht, rfl⟩)
  · exact Or.inr (Or.inr (Or.inl ⟨t, ht, rfl⟩))
  · exact Or.inr (Or.inr (Or.inr rfl))

theorem IdFrom_monoR {usedU usedA usedR : List Nat} {t0 : Nat} {i : String} (nR : Nat)
    (hi : IdFrom usedU usedA usedR t0 i) : IdFrom usedU usedA (nR :: usedR) t0 i := by
  rcases hi with ⟨t, ht, rfl⟩ | ⟨t, ht, rfl⟩ | ⟨t, ht, rfl⟩ | rfl
  · exact Or.inl ⟨t, ht, rfl⟩
  · exact Or.inr (Or.inl ⟨t, ht, rfl⟩)
  · exact Or.inr (Or.inr (Or.inl ⟨t, List.mem_cons_of_mem nR ht, rfl⟩))
  · exact Or.inr (Or.inr (Or.inr rfl))

theorem IdFrom_ne_userMsgId {usedU usedA usedR : List Nat} {t0 : Nat} {i : String} {nU : Nat}
    (hi : IdFrom usedU usedA usedR t0 i) (hnew : nU ∉ usedU) : i ≠ userMsgId nU := by
  rcases hi with ⟨t, ht, rfl⟩ | ⟨t, ht, rfl⟩ | ⟨t, ht, rfl⟩ | rfl
  · intro hc
    exact hnew (userMsgId_inj hc ▸ ht)
  · exact fun hc => userMsgId_ne_aiMsgId nU t hc.symm
  · exact fun hc => userMsgId_ne_resetGreetId nU t hc.symm
  · exact fun hc => userMsgId_ne_initGreetId nU t0 hc.symm

theorem IdFrom_ne_aiMsgId {usedU usedA usedR : List Nat} {t0 : Nat} {i : String} {nA : Nat}
    (hi : IdFrom usedU usedA usedR t0 i) (hnew : nA ∉ usedA) : i ≠ aiMsgId nA := by
  rcases hi with ⟨t, ht, rfl⟩ | ⟨t, ht, rfl⟩ | ⟨t, ht, rfl⟩ | rfl
  · exact userMsgId_ne_aiMsgId t nA
  · intro hc
    exact hnew (aiMsgId_inj hc ▸ ht)
  · exact fun hc => aiMsgId_ne_resetGreetId nA t hc.symm
  · exact fun hc => aiMsgId_ne_initGreetId nA t0 hc.symm

theorem runApp_ids_nodup_aux (t0 : Nat) :
    ∀ (ops : List AppOp) (s : AppState) (usedU usedA usedR : List Nat),
      (∀ i ∈ s.messages.map Message.id, IdFrom usedU usedA usedR t0 i) →
      (s.messages.map Message.id).Nodup →
      (ops.filterMap AppOp.sendUserStamp).Nodup →
      (ops.filterMap AppOp.sendAiStamp).Nodup →
      (ops.filterMap AppOp.resetStamp).Nodup →
      (∀ t ∈ ops.filterMap AppOp.sendUserStamp, t ∉ usedU) →
      (∀ t ∈ ops.filterMap AppOp.sendAiStamp, t ∉ usedA) →
      (∀ t ∈ ops.filterMap AppOp.resetStamp, t ∉ usedR) →
      ((runApp s ops).messages.map Message.id).Nodup := by
  intro ops
  induction ops with
  | nil =>
    intro s usedU usedA usedR _ hnd _ _ _ _ _ _
    exact hnd
  | cons op ops ih =>
    intro s usedU usedA usedR hinv hnd hU hA hR hdU hdA hdR
    show ((runApp (stepApp s op) ops).messages.map Message.id).Nodup
    match op with
    | AppOp.send nU nA text stream =>
      have hU' : (nU :: ops.filterMap AppOp.sendUserStamp).Nodup := hU
      have hA' : (nA :: ops.filterMap AppOp.sendAiStamp).Nodup := hA
      have hR' : (ops.filterMap AppOp.resetStamp).Nodup := hR
      have hdU' : ∀ t ∈ nU :: ops.filterMap AppOp.sendUserStamp, t ∉ usedU := hdU
      have hdA' : ∀ t ∈ nA :: ops.filterMap AppOp.sendAiStamp, t ∉ usedA := hdA
      have hdR' : ∀ t ∈ ops.filterMap AppOp.resetStamp, t ∉ usedR := hdR
      rw [List.nodup_cons] at hU' hA'
      have hids := handleSendMessage_ids nU nA text stream s
      have hstep : (stepApp s (AppOp.send nU nA text stream)).messages
          = (handleSendMessage nU nA text stream s).messages := rfl
      refine ih _ (nU :: usedU) (nA :: usedA) usedR ?_ ?_ hU'.2 hA'.2 hR' ?_ ?_ hdR'
      · intro i hi
        rw [hstep, hids] at hi
        by_cases hkey : s.apiKeyMissing
        · rw [if_pos hkey] at hi
          exact IdFrom_mono nU nA (hinv i hi)
        · rw [if_neg hkey] at hi
          rcases List.mem_append.mp hi with hold | hnew
          · exact IdFrom_mono nU nA (hinv i hold)
          · rcases List.mem_cons.mp hnew with rfl | hnew2
            · exact Or.inl ⟨nU, List.mem_cons_self _ _, rfl⟩
            · rcases List.mem_cons.mp hnew2 with rfl | hfalse
              · exact Or.inr (Or.inl ⟨nA, List.mem_cons_self _ _, rfl⟩)
              · exact absurd hfalse (List.not_mem_nil i)
      · rw [hstep, hids]
        by_cases hkey : s.apiKeyMissing
        · rw [if_pos hkey]
          exact hnd
        · rw [if_neg hkey]
          rw [List.nodup_append]
          refine ⟨hnd, ?_, ?_⟩
          · simp [List.nodup_cons, userMsgId_ne_aiMsgId nU nA]
          · intro i hiold hinew
            rcases List.mem_cons.mp hinew with rfl | h2
            · exact IdFrom_ne_userMsgId (hinv _ hiold) (hdU' nU (List.mem_cons_self _ _)) rfl
            · rcases List.mem_cons.mp h2 with rfl | hfalse
              · exact IdFrom_ne_aiMsgId (hinv _ hiold) (hdA' nA (List.mem_cons_self _ _)) rfl
              · exact absurd hfalse (List.not_mem_nil i)
      · intro t ht hc
        rcases List.mem_cons.mp hc with rfl | hmem
        · exact hU'.1 ht
        · exact hdU' t (List.mem_cons_of_mem _ ht) hmem
      · intro t ht hc
        rcases List.mem_cons.mp hc with rfl | hmem
        · exact hA'.1 ht
        · exact hdA' t (List.mem_cons_of_mem _ ht) hmem
    | AppOp.reset now =>
      have hU' : (ops.filterMap AppOp.sendUserStamp).Nodup := hU
      have hA' : (ops.filterMap AppOp.sendAiStamp).Nodup := hA
      have hR' : (now :: ops.filterMap AppOp.resetStamp).Nodup := hR
      have hdU' : ∀ t ∈ ops.filterMap AppOp.sendUserStamp, t ∉ usedU := hdU
      have hdA' : ∀ t ∈ ops.filterMap AppOp.sendAiStamp, t ∉ usedA := hdA
      have hdR' : ∀ t ∈ now :: ops.filterMap AppOp.resetStamp, t ∉ usedR := hdR
      rw [List.nodup_cons] at hR'
      have hstep : (stepApp s (AppOp.reset now)).messages = [resetGreeting now] := rfl
      refine ih _ usedU usedA (now :: usedR) ?_ ?_ hU' hA' hR'.2 hdU' hdA' ?_
      · intro i hi
        rw [hstep] at hi
        have hi' : i = resetGreetId now := by simpa [resetGreeting] using hi
        exact Or.inr (Or.inr (Or.inl ⟨now, List.mem_cons_self _ _, hi'⟩))
      · rw [hstep]
        simp
      · intro t ht hc
        rcases List.mem_cons.mp hc with rfl | hmem
        · exact hR'.1 ht
        · exact hdR' t (List.mem_cons_of_mem _ ht) hmem
    | AppOp.play text msgId =>
      refine ih _ usedU usedA usedR ?_ ?_ hU hA hR hdU hdA hdR
      · intro i hi
        rw [show (stepApp s (AppOp.play text msgId)).messages = s.messages from
          handlePlaySpeech_messages text msgId s] at hi
        exact hinv i hi
      · rw [show (stepApp s (AppOp.play text msgId)).messages = s.messages from
          handlePlaySpeech_messages text msgId s]
        exact hnd
    | AppOp.stop =>
      refine ih _ usedU usedA usedR ?_ ?_ hU hA hR hdU hdA hdR
      · intro i hi
        rw [show (stepApp s AppOp.stop).messages = s.messages from handleStopSpeech_messages s] at hi
        exact hinv i hi
      · rw [show (stepApp s AppOp.stop).messages = s.messages from handleStopSpeech_messages s]
        exact hnd
    | AppOp.speakerClick m =>
      refine ih _ usedU usedA usedR ?_ ?_ hU hA hR hdU hdA hdR
      · intro i hi
        rw [show (stepApp s (AppOp.speakerClick m)).messages = s.messages from
          handleSpeakerClick_messages m s] at hi
        exact hinv i hi
      · rw [show (stepApp s (AppOp.speakerClick m)).messages = s.messages from
          handleSpeakerClick_messages m s]
        exact hnd
    | AppOp.utterEnd =>
      exact ih _ usedU usedA usedR hinv hnd hU hA hR hdU hdA hdR
    | AppOp.utterError =>
      exact ih _ usedU usedA usedR hinv hnd hU hA hR hdU hdA hdR
    | AppOp.speechError message =>
      exact ih _ usedU usedA usedR hinv hnd hU hA hR hdU hdA hdR

/-- C6 counterexample: two send operations whose `Date.now()` reads fall in
the same millisecond produce duplicate message identifiers, so the claim as
stated (for every sequence of operations) fails on the code. -/
theorem message_ids_distinct_counterexample :
    ¬ ((runApp (initApp true true true 0)
        [AppOp.send 5 5 ("hi") { chunks := [], outcome := Except.ok () },
         AppOp.send 5 5 ("hi") { chunks := [], outcome := Except.ok () }]).messages.map
          Message.id).Nodup := by decide

/-- C6 (amended): provided distinct send operations read distinct `Date.now()`
values for their user stamps and for their assistant stamps, and distinct
resets read distinct values, all message identifiers in the transcript are
pairwise distinct after any sequence of operations. -/
theorem message_ids_distinct (akp synth recog : Bool) (t0 : Nat) (ops : List AppOp)
    (hU : (ops.filterMap AppOp.sendUserStamp).Nodup)
    (hA : (ops.filterMap AppOp.sendAiStamp).Nodup)
    (hR : (ops.filterMap AppOp.resetStamp).Nodup) :
    ((runApp (initApp akp synth recog t0) ops).messages.map Message.id).Nodup := by
  refine runApp_ids_nodup_aux t0 ops (initApp akp synth recog t0) [] [] []
    ?_ ?_ hU hA hR ?_ ?_ ?_
  · intro i hi
    unfold initApp at hi
    by_cases hk : akp = false
    · rw [if_pos hk] at hi
      simp at hi
    · rw [if_neg hk] at hi
      have hi' : i = initGreetId t0 := by simpa [initialGreeting] using hi
      exact Or.inr (Or.inr (Or.inr hi'))
  · unfold initApp
    by_cases hk : akp = false
    · rw [if_pos hk]
      simp
    · rw [if_neg hk]
      simp
  · intro t _
    exact List.not_mem_nil t
  · intro t _
    exact List.not_mem_nil t
  · intro t _
    exact List.not_mem_nil t

/-- Witness for the amended C6 on a concrete operation sequence with
distinct timestamps. -/
theorem message_ids_distinct_witness :
    (([AppOp.send 5 6 ("hi") { chunks := [], outcome := Except.ok () },
       AppOp.reset 9,
       AppOp.send 7 8 ("yo") { chunks := [some ("x")], outcome := Except.ok () }].filterMap
        AppOp.sendUserStamp).Nodup ∧
     ([AppOp.send 5 6 ("hi") { chunks := [], outcome := Except.ok () },
       AppOp.reset 9,
       AppOp.send 7 8 ("yo") { chunks := [some ("x")], outcome := Except.ok () }].filterMap
        AppOp.sendAiStamp).Nodup ∧
     ([AppOp.send 5 6 ("hi") { chunks := [], outcome := Except.ok () },
       AppOp.reset 9,
       AppOp.send 7 8 ("yo") { chunks := [some ("x")], outcome := Except.ok () }].filterMap
        AppOp.resetStamp).Nodup) ∧
    ((runApp (initApp true true true 0)
        [AppOp.send 5 6 ("hi") { chunks := [], outcome := Except.ok () },
         AppOp.reset 9,
         AppOp.send 7 8 ("yo") { chunks := [some ("x")], outcome := Except.ok () }]).messages.map
          Message.id).Nodup :=
  ⟨⟨by decide, by decide, by decide⟩,
    message_ids_distinct true true true 0
      [AppOp.send 5 6 ("hi") { chunks := [], outcome := Except.ok () },
       AppOp.reset 9,
       AppOp.send 7 8 ("yo") { chunks := [some ("x")], outcome := Except.ok () }]
      (by decide) (by decide) (by decide)⟩

/-- C10: When chat initialization fails (or the chat handle would be
absent), `sendMessageToTejaswiStream` does not reject at call time: it
resolves with an async iterable whose first iteration throws that very
error. -/
theorem init_failure_returns_error_stream (env : ServiceEnv) (st : ServiceState) (msg e : String)
    (hfail : (initializeChat env st).2 = some e) :
    (sendMessageToTejaswiStream env st msg).2 = Except.ok (errorStream e) ∧
    firstPull (errorStream e) = Except.error e := by
  refine ⟨?_, rfl⟩
  unfold sendMessageToTejaswiStream
  rcases h : initializeChat env st with ⟨st1, err⟩
  rw [h] at hfail
  simp only at hfail
  rw [hfail]

/-- Witness for C10: missing API key on a fresh service state. -/
theorem init_failure_returns_error_stream_witness :
    ((initializeChat sampleFailEnv { ai := false, chat := false }).2 = some missingKeyError) ∧
    (sendMessageToTejaswiStream sampleFailEnv { ai := false, chat := false } ("hi")).2
      = Except.ok (errorStream missingKeyError) ∧
    firstPull (errorStream missingKeyError) = Except.error missingKeyError :=
  ⟨rfl, init_failure_returns_error_stream sampleFailEnv { ai := false, chat := false }
    ("hi") missingKeyError rfl⟩

end MeAsAI
